import Mathlib

/-!
Verification of the ReformulateWithAI concurrent CSV-reformulation engine.

The definitions below are a shallow embedding of the Python sources:
  - `reformulator/openai_client.py` : the retry/backoff loop of `call_openai`,
    the shape-rejected `TypeError` pattern, and the `USE_RESPONSE_FORMAT`
    capability flag guarded by `RESPONSE_FORMAT_LOCK`;
  - `reformulator/core.py` : the `process` task wrapper, the index-addressed
    result application of `reformulate_rows`, and the `run` orchestrator;
  - `reformulator/progress.py` : `build_logo_progress` over `ASCII_LOGO_LINES`.

Machine reals (Python floats) are modelled by rationals, Python dicts by
association lists, exceptions by `Except`, and the thread pool's unordered
completion by an explicit completion-order parameter.
-/

/-! ## Python string primitives -/

/-- Whitespace characters recognised by Python `str.strip()` (ASCII range). -/
def pyIsSpace (c : Char) : Bool :=
  c == ' ' || c == '\t' || c == '\n' || c == '\x0d' || c == '\x0b' || c == '\x0c'

/-- Model of the Python test `not text.strip()`: the string is empty or
whitespace-only. -/
def pyBlank (s : String) : Bool :=
  s.toList.all pyIsSpace

/-- Decide whether `needle` is a prefix of `hay` (character lists). -/
def charsStartWith : List Char → List Char → Bool
  | [], _ => true
  | _ :: _, [] => false
  | a :: as, b :: bs => a == b && charsStartWith as bs

/-- Decide whether `needle` occurs as a contiguous substring of `hay`. -/
def charsHaveSub (needle : List Char) : List Char → Bool
  | [] => charsStartWith needle []
  | b :: bs => charsStartWith needle (b :: bs) || charsHaveSub needle bs

/-- Model of the Python substring test `needle in hay`. -/
def strHasSub (needle hay : String) : Bool :=
  charsHaveSub needle.toList hay.toList

/-! ## Row model (Python `dict[str, str]` as an association list) -/

/-- A CSV record: a mapping from field name to text value. -/
abbrev Row : Type := List (String × String)

/-- Model of `row.get(column, "")`. -/
def rowGet (row : Row) (k : String) : String :=
  match List.find? (fun p => p.1 == k) row with
  | some p => p.2
  | none => ""

/-- Model of the dict assignment `row[column] = v`: replace the binding when
the key is present, append it otherwise. -/
def rowSet (row : Row) (k v : String) : Row :=
  if List.any row (fun p => p.1 == k) then
    List.map (fun p => if p.1 == k then (k, v) else p) row
  else
    row ++ [(k, v)]

/-! ## openai_client: capability flag, shape-rejected pattern, retry loop -/

/-- The condition in the `except TypeError` handler of `call_openai` that
classifies a `TypeError` as the shape-rejected signal:
`"unexpected keyword argument" in message and ("text" in message or
"response_format" in message)`. -/
def shapeRejectedMsg (msg : String) : Bool :=
  strHasSub "unexpected keyword argument" msg &&
    (strHasSub "text" msg || strHasSub "response_format" msg)

/-- Outcome of one `client.responses.create` + extraction round inside
`call_openai`: a successful extraction, a retryable transient service error,
or a `TypeError` raised by the request call. -/
inductive ServiceOutcome where
  | success (payload : String)
  | transient (err : String)
  | typeErr (msg : String)
deriving DecidableEq, Repr

/-- Errors that can escape `call_openai`. -/
inductive CallError where
  | runtimeErr (msg : String)
  | typeErr (msg : String)
deriving DecidableEq, Repr

instance {ε α : Type} [DecidableEq ε] [DecidableEq α] : DecidableEq (Except ε α) := fun a b =>
  match a, b with
  | .ok a, .ok b =>
      if h : a = b then .isTrue (by rw [h]) else .isFalse (by simp [h])
  | .error a, .error b =>
      if h : a = b then .isTrue (by rw [h]) else .isFalse (by simp [h])
  | .ok _, .error _ => .isFalse (by simp)
  | .error _, .ok _ => .isFalse (by simp)

/-- Observable trace of one `call_openai` invocation: the returned value or
escaped error, the final value of `USE_RESPONSE_FORMAT`, how many times the
one-time downgrade warning was printed, the backoff delays slept (in order),
and the final value of the `attempt` counter. -/
structure CallTrace where
  result : Except CallError String
  flagOut : Bool
  warns : Nat
  sleeps : List ℚ
  attempts : Nat
deriving DecidableEq, Repr

/-- The backoff delay `backoff_base ** attempt + (0.1 * attempt)` computed
before a retry, for `backoff_base = 2.0`. -/
def backoffDelay (attempt : Nat) : ℚ :=
  (2 : ℚ) ^ attempt + (attempt : ℚ) / 10

/-- Model of the `while True` loop of `call_openai`, driven by the script of
successive service outcomes.  `flag` is the current value of the global
`USE_RESPONSE_FORMAT` (each read and write happens inside
`RESPONSE_FORMAT_LOCK`, so one loop iteration sees a consistent value).
The loop body increments `attempt` first; the shape-rejected handler flips
the flag (when still set) and `continue`s, re-entering the loop head where
`attempt` is incremented again; the transient handler raises once
`attempt > max_retries` and otherwise sleeps `backoffDelay attempt` and
retries.  Returns `none` when the script is exhausted with the loop still
running. -/
def callOpenaiLoop (maxRetries : Nat) :
    Bool → Nat → Nat → List ℚ → List ServiceOutcome → Option CallTrace
  | _, _, _, _, [] => none
  | flag, attempt, warns, sleeps, o :: rest =>
    let attempt' := attempt + 1
    let useStructured := flag
    match o with
    | .success p => some ⟨.ok p, flag, warns, sleeps, attempt'⟩
    | .typeErr msg =>
        if useStructured && shapeRejectedMsg msg then
          if flag then
            callOpenaiLoop maxRetries false attempt' (warns + 1) sleeps rest
          else
            callOpenaiLoop maxRetries flag attempt' warns sleeps rest
        else
          some ⟨.error (.typeErr msg), flag, warns, sleeps, attempt'⟩
    | .transient err =>
        if maxRetries < attempt' then
          some ⟨.error (.runtimeErr ("Échec après " ++ toString maxRetries ++
            " tentatives: " ++ err)), flag, warns, sleeps, attempt'⟩
        else
          callOpenaiLoop maxRetries flag attempt' warns
            (sleeps ++ [backoffDelay attempt']) rest

/-- One `call_openai` invocation started with `USE_RESPONSE_FORMAT = true`
(its initial value) and a fresh attempt counter. -/
def callOpenai (maxRetries : Nat) (script : List ServiceOutcome) : Option CallTrace :=
  callOpenaiLoop maxRetries true 0 0 [] script

/-! ## Capability-flag transition system

The global `USE_RESPONSE_FORMAT` starts `true`; every access from any worker
happens inside `with RESPONSE_FORMAT_LOCK`, so a concurrent execution is a
sequence of atomic critical sections: reads of the flag, and the flip section
`if USE_RESPONSE_FORMAT: USE_RESPONSE_FORMAT = False; print(warning)`. -/

/-- An atomic lock-protected access to `USE_RESPONSE_FORMAT`: a read, or the
guarded flip performed by a worker that received a shape-rejected signal. -/
inductive FlagEvent where
  | readFlag
  | flipSignal
deriving DecidableEq, Repr

/-- Effect of one critical section on `(USE_RESPONSE_FORMAT, warnings printed)`. -/
def flagStep : Bool × Nat → FlagEvent → Bool × Nat
  | (flag, warns), .readFlag => (flag, warns)
  | (flag, warns), .flipSignal => if flag then (false, warns + 1) else (flag, warns)

/-- State of the flag after an arbitrary interleaving of critical sections,
starting from the initial `USE_RESPONSE_FORMAT = True`. -/
def runFlagEvents (events : List FlagEvent) : Bool × Nat :=
  events.foldl flagStep (true, 0)

/-! ## core.py: task wrapper, index-addressed application, orchestrator -/

/-- Python exceptions surfaced by the engine, with the message that
`f"{err}"` renders. -/
inductive PyError where
  | typeError (msg : String)
  | runtimeError (msg : String)
deriving DecidableEq, Repr

/-- The text interpolated for the exception by `f"Erreur pendant la
reformulation: {err}"`. -/
def PyError.message : PyError → String
  | .typeError msg => msg
  | .runtimeError msg => msg

/-- Model of the task wrapper `process(index, text)` inside
`reformulate_rows`.  `invoke` abstracts the expression
`call_openai(client, model, text, max_retries=max_retries)` and reports how
many times the body of `call_openai` actually ran (0 when the call raises
before entering the body); `clientReady` is `client is not None`.  The
returned number counts delegations to the service collaborator. -/
def processCore (dryRun clientReady : Bool) (invoke : String → Except PyError String × Nat)
    (index : Nat) (text : String) : Except PyError (Nat × String) × Nat :=
  if dryRun || pyBlank text then
    (.ok (index, text), 0)
  else if clientReady = false then
    (.error (.runtimeError "Client OpenAI non initialisé."), 0)
  else
    ((invoke text).1.map (fun r => (index, r)), (invoke text).2)

/-- The text carried by one task's InvocationResult when the invocation
succeeds: the original value under the dry-run / blank shortcut, the rewrite
`f` of `call_openai` otherwise. -/
def taskText (dryRun : Bool) (f : String → String) (text : String) : String :=
  if dryRun || pyBlank text then text else f text

/-- The `(index, text)` pairs produced when every task of the batch resolves:
one `process(idx, row.get(column, ""))` per record, in submission order.
`f` is the rewrite performed by a successful `call_openai`. -/
def invocationResults (dryRun : Bool) (f : String → String) (column : String)
    (rows : List Row) : List (Nat × String) :=
  (List.range rows.length).map (fun i =>
    (i, taskText dryRun f (rowGet (rows.getD i []) column)))

/-- The collection loop of `reformulate_rows`: walk the futures in completion
order (`order` lists the record indices as their futures complete), re-raise
the first failure, and otherwise perform `rows[index][column] = text`.
Inputs were captured from `rows₀` at submission time, before any mutation. -/
def applyLoop (column : String) (proc : Nat → String → Except PyError (Nat × String) × Nat)
    (rows₀ : List Row) : List Nat → List Row → Except PyError (List Row)
  | [], acc => .ok acc
  | i :: rest, acc =>
    match (proc i (rowGet (rows₀.getD i []) column)).1 with
    | .error e => .error e
    | .ok (j, t) => applyLoop column proc rows₀ rest (acc.set j (rowSet (acc.getD j []) column t))

/-- Model of `reformulate_rows`: all futures are submitted with the original
row values, then collected in the (arbitrary) completion order `order`,
mutating the batch in place; the first failed future aborts the batch. -/
def reformulateRows (column : String) (dryRun clientReady : Bool)
    (invoke : String → Except PyError String × Nat) (rows : List Row)
    (order : List Nat) : Except PyError (List Row) :=
  applyLoop column (processCore dryRun clientReady invoke) rows order rows

/-- Number of delegations to the service collaborator across the batch. -/
def batchServiceCalls (column : String) (dryRun clientReady : Bool)
    (invoke : String → Except PyError String × Nat) (rows : List Row) : Nat :=
  ((List.range rows.length).map (fun i =>
    (processCore dryRun clientReady invoke i (rowGet (rows.getD i []) column)).2)).sum

/-- Errors that terminate `run`. -/
inductive RunError where
  | valueError (msg : String)
  | envError (msg : String)
  | systemExit (msg : String)
deriving DecidableEq, Repr

/-- The row-count ceiling of `run`: `rows[: config.limit_rows]` when the
limit is below the total row count, everything otherwise. -/
def limitTarget (rows : List Row) (limitRows : Option Int) : List Row :=
  match limitRows with
  | some l => if l < (rows.length : Int) then rows.take l.toNat else rows
  | none => rows

/-- Model of `run` from the point where the input collaborator has supplied
`rows` and `headers`: column validation, the row-count ceiling, client
creation (`create_client` needs the API key unless dry-run), the
`reformulate_rows` call wrapped in `except Exception: raise SystemExit(...)`,
and finally the payload handed to `save_rows` (headers plus the target
rows). -/
def run (rows : List Row) (headers : List String) (column : String)
    (limitRows : Option Int) (dryRun : Bool) (apiKeyPresent : Bool)
    (invoke : String → Except PyError String × Nat) (order : List Nat) :
    Except RunError (List String × List Row) :=
  if headers.contains column = false then
    .error (.valueError ("La colonne \x27" ++ column ++
      "\x27 n\x27existe pas dans le fichier. Colonnes disponibles: " ++
      String.intercalate ", " headers))
  else if Option.any (fun l => decide (l < 1)) limitRows then
    .error (.valueError "--limit-rows doit être supérieur ou égal à 1.")
  else if dryRun = false ∧ apiKeyPresent = false then
    .error (.envError "La variable d\x27environnement OPENAI_API_KEY doit être définie.")
  else
    match reformulateRows column dryRun (!dryRun) invoke (limitTarget rows limitRows) order with
    | .error e => .error (.systemExit ("Erreur pendant la reformulation: " ++ e.message))
    | .ok mutated => .ok (headers, mutated)

/-! ## progress.py: build_logo_progress -/

/-- The lines of `ASCII_LOGO` (`ASCII_LOGO.splitlines()`), verbatim. -/
def asciiLogoLines : List String :=
  [
    "                                                                                                                  %%%%%%%%%                                               ",
    "                                                                                                                 %%%%%%%%%%%%                                             ",
    "                                                                                                                %%%%%%%%%%%%%%                                            ",
    "                                                                                                               %%%%%%%%% %%%%%%                                           ",
    "                                                                                                              %%%%%%%%%   %%%%%%                                          ",
    "                                              @@@        @@@         @@         @@@        @@@       @@@     %%%%%% %%%   %%%%%%                                          ",
    "                                            @@@@@@@    @@@@@@@     @@@@@@@    @@@@@@@    @@@@@@@   @@@@@@@   %%%%%  %%%   %%%%%%                                          ",
    "                                           @@@@@@@@@  @@@@@@@@@   @@@@@@@@@  @@@@@@@@@  @@@@@@@@@ @@@@@@@@@  %%%%%%%%%%     %%%%%                                         ",
    "                                          @@@@   @@@  @@@   @@@@ @@@@   @@@ @@@@   @@@@@@@@   @@@@@@@   @@@ %%%%%%%%%%%      %%%%                                         ",
    "                                          @@@     @@@@@@     @@@ @@@     @@ @@@     @@@@@@@       @@@       %%%%%%%%%%%     %%%%%                                         ",
    "                                          @@      @@@@@@        @@@         @@@@@@@@@@@ @@@@@@@   @@@@@@@@  %%%%%%  %%%   %%%%%%%                                         ",
    "                                          @@      @@@@@@        @@@         @@@@@@@@@@@  @@@@@@@   @@@@@@@@ %%%%%%  %%%   %%%%%%%                                         ",
    "                                          @@@     @@@@@@     @@@ @@@     @@ @@@              @@@@      @@@@  %%%%%  %%%   %%%%%%%                                         ",
    "                                          @@@@  @@@@@ @@@   @@@@ @@@@   @@@ @@@@   @@@  @@    @@@ @@    @@@  %%%%%  %%%   %%%%%%                                          ",
    "                                           @@@@@@@@@@ @@@@@@@@@   @@@@@@@@@  @@@@@@@@@ @@@@@@@@@@@@@@@@@@@@  %%%%%  %%%   %%%%%%                                          ",
    "                                            @@@@@@@@@  @@@@@@@    @@@@@@@@    @@@@@@@   @@@@@@@@  @@@@@@@@    %%%%%%%%%%%%%%%%%                                           ",
    "                                              @@@  @     @@@        @@@        @@@@       @@@@      @@@@       %%%%%%%%%%%%%%%%                                           ",
    "                                                                                                                %%%%%%%%%%%%%%                                            ",
    "                                                                                                                 %%%%%%%%%%%%                                             ",
    "                                                                                                                  %%%%%%%%%                                               "
  ]

/-- The characters of a logo line. -/
def asciiLogoCharLines : List (List Char) :=
  asciiLogoLines.map String.toList

/-- `ASCII_LOGO_TOTAL_CHARS = sum(len(line) for line in ASCII_LOGO_LINES)`. -/
def asciiLogoTotalChars : Nat :=
  (asciiLogoCharLines.map List.length).sum

/-- The number of logo characters revealed for a completion ratio `r`:
clamp the ratio to `[0, 1]`, truncate `ASCII_LOGO_TOTAL_CHARS * clamped`,
bump a zero count to 1 when the clamped ratio is positive, and cap at the
total.  Python floats are modelled by rationals; `int()` on a non-negative
value is `Int.toNat` of the floor. -/
def visibleChars (r : ℚ) : Nat :=
  let clamped : ℚ := max 0 (min 1 r)
  let v : Nat := (Int.toNat ⌊(asciiLogoTotalChars : ℚ) * clamped⌋)
  let v : Nat := if 0 < clamped ∧ v = 0 then 1 else v
  min asciiLogoTotalChars v

/-- The per-line rendering loop of `build_logo_progress`: spend `remaining`
revealed characters over the lines in order; a fully covered line is kept, a
partially covered line keeps its prefix and is padded with spaces, and lines
after the budget is spent are replaced by spaces of the same length. -/
def revealLoop : Nat → List (List Char) → List (List Char)
  | _, [] => []
  | remaining, line :: rest =>
    if remaining = 0 then
      List.replicate line.length ' ' :: revealLoop 0 rest
    else if line.length ≤ remaining then
      line :: revealLoop (remaining - line.length) rest
    else
      (line.take remaining ++ List.replicate (line.length - remaining) ' ') :: revealLoop 0 rest

/-- Model of `build_logo_progress(ratio)`: the list of rendered lines (the
source joins them with a newline before returning). -/
def buildLogoProgress (r : ℚ) : List (List Char) :=
  if asciiLogoTotalChars = 0 ∨ asciiLogoCharLines = [] then []
  else revealLoop (visibleChars r) asciiLogoCharLines

/-! ## The packaged call site of `call_openai` (C10) -/

/-- The required keyword-only parameters of `call_openai` in
`reformulator/openai_client.py` (parameters after the `*` marker with no
default). -/
def callOpenaiRequiredKwOnly : List String :=
  ["target_language"]

/-- The keyword arguments that `process` in `reformulator/core.py` passes to
`call_openai(client, model, text, max_retries=max_retries)`. -/
def coreCallKeywords : List String :=
  ["max_retries"]

/-- Python argument binding for that call site: a required keyword-only
parameter with no supplied argument raises `TypeError` before the callee
body runs. -/
def coreCallBinding : Except PyError Unit :=
  match callOpenaiRequiredKwOnly.filter (fun k => !(coreCallKeywords.contains k)) with
  | [] => .ok ()
  | [k] => .error (.typeError ("call_openai() missing 1 required keyword-only argument: \x27" ++ k ++ "\x27"))
  | ks => .error (.typeError ("call_openai() missing " ++ toString ks.length ++ " required keyword-only arguments"))

/-- The `invoke` realised by the packaged variant: the binding error escapes
before the `call_openai` body (and hence any service call) is reached;
`body` is the never-reached behaviour of the `call_openai` body itself. -/
def packagedInvoke (body : String → Except PyError String × Nat) :
    String → Except PyError String × Nat :=
  fun text =>
    match coreCallBinding with
    | .error e => (.error e, 0)
    | .ok _ => body text

/-! ## Derived definitions used by the statements -/

/-- An `invoke` whose `call_openai` body always succeeds with rewrite `f`
(one service delegation per call). -/
def pureInvoke (f : String → String) : String → Except PyError String × Nat :=
  fun text => (.ok (f text), 1)

/-- One in-place update `rows[i][column] = ...` of the collection loop, with
the task input captured from the original batch `rows₀`. -/
def updStep (column : String) (dryRun : Bool) (f : String → String) (rows₀ : List Row)
    (acc : List Row) (i : Nat) : List Row :=
  acc.set i (rowSet (acc.getD i []) column (taskText dryRun f (rowGet (rows₀.getD i []) column)))

/-- The batch after every task's result has been applied at its own index. -/
def expectedRows (dryRun : Bool) (f : String → String) (column : String)
    (rows : List Row) : List Row :=
  (List.range rows.length).map (fun i =>
    rowSet (rows.getD i []) column (taskText dryRun f (rowGet (rows.getD i []) column)))

/-! # Shared lemmas -/

/-- Every flag state reachable from the initial or the flipped-once state is
one of those two states. -/
lemma flagStep_reachable (events : List FlagEvent) (s : Bool × Nat)
    (hs : s = (true, 0) ∨ s = (false, 1)) :
    events.foldl flagStep s = (true, 0) ∨ events.foldl flagStep s = (false, 1) := by
  induction events generalizing s with
  | nil => simpa using hs
  | cons e rest ih =>
      refine ih (flagStep s e) ?_
      rcases hs with h | h <;> subst h <;> cases e <;> simp [flagStep]

/-! # Claims -/

/-- Claim C5: the CapabilityFlag `USE_RESPONSE_FORMAT` starts true; across an
arbitrary interleaving of lock-serialized critical sections (reads and
shape-rejected flip attempts from any number of workers) it transitions
true→false at most once — the reachable states are exactly the initial state
and the flipped-once state, with at most one downgrade warning — and no
critical section ever transitions it false→true.  The serialization itself is
structural in the source (every access to the flag sits inside
`with RESPONSE_FORMAT_LOCK`), which the model captures by making each
critical section one atomic `flagStep`. -/
theorem claim_C5 :
    runFlagEvents [] = (true, 0)
    ∧ (∀ events : List FlagEvent,
        runFlagEvents events = (true, 0) ∨ runFlagEvents events = (false, 1))
    ∧ (∀ events : List FlagEvent, (runFlagEvents events).2 ≤ 1)
    ∧ (∀ (s : Bool × Nat) (e : FlagEvent), (flagStep s e).1 = true → s.1 = true) := by
  refine ⟨rfl, ?_, ?_, ?_⟩
  · intro events
    exact flagStep_reachable events (true, 0) (Or.inl rfl)
  · intro events
    rcases flagStep_reachable events (true, 0) (Or.inl rfl) with h | h <;>
      simp [runFlagEvents] at h ⊢ <;> simp [h]
  · rintro ⟨flag, warns⟩ e h
    cases e <;> cases flag <;> simp_all [flagStep]

/-- Witness for claim C5 at a concrete state and event. -/
theorem claim_C5_witness :
    (flagStep (true, 0) FlagEvent.readFlag).1 = true ∧ (true, 0).1 = true :=
  ⟨rfl, claim_C5.2.2.2 (true, 0) FlagEvent.readFlag rfl⟩

/-- Running `call_openai` through a prefix of transient failures that stays
within the retry ceiling sleeps one backoff delay per failure and continues
the loop with the attempt counter advanced. -/
lemma callOpenaiLoop_transient_leading (maxRetries : Nat) (errs : List String)
    (rest : List ServiceOutcome) (flag : Bool) (attempt warns : Nat) (sleeps : List ℚ)
    (h : attempt + errs.length ≤ maxRetries) :
    callOpenaiLoop maxRetries flag attempt warns sleeps
        (errs.map ServiceOutcome.transient ++ rest)
      = callOpenaiLoop maxRetries flag (attempt + errs.length) warns
          (sleeps ++ (List.range errs.length).map (fun j => backoffDelay (attempt + j + 1)))
          rest := by
  induction errs generalizing attempt sleeps with
  | nil => simp
  | cons e es ih =>
      have h1 : ¬ maxRetries < attempt + 1 := by
        simp at h; omega
      simp only [List.map_cons, List.cons_append, callOpenaiLoop]
      rw [if_neg h1]
      simp only [List.append_eq]
      rw [ih (attempt + 1) (sleeps ++ [backoffDelay (attempt + 1)]) (by simp at h ⊢; omega)]
      have harg : attempt + 1 + es.length = attempt + (e :: es).length := by
        simp; omega
      have hsl : (sleeps ++ [backoffDelay (attempt + 1)])
            ++ (List.range es.length).map (fun j => backoffDelay (attempt + 1 + j + 1))
          = sleeps ++ (List.range (e :: es).length).map (fun j => backoffDelay (attempt + j + 1)) := by
        rw [List.append_assoc]
        congr 1
        simp only [List.length_cons, List.range_succ_eq_map, List.map_cons, List.map_map,
          List.singleton_append]
        congr 1
        refine List.map_congr_left ?_
        intro j hj
        simp only [Function.comp_apply, Nat.succ_eq_add_one]
        congr 1
        omega
      rw [harg, hsl]

/-- A run of transient failures within the retry ceiling followed by a
success returns the success value, with one recorded backoff sleep per
failure. -/
lemma callOpenai_transient_success (maxRetries : Nat) (errs : List String) (p : String)
    (h : errs.length ≤ maxRetries) :
    callOpenai maxRetries (errs.map ServiceOutcome.transient ++ [ServiceOutcome.success p])
      = some ⟨.ok p, true, 0,
          (List.range errs.length).map (fun j => backoffDelay (j + 1)), errs.length + 1⟩ := by
  unfold callOpenai
  rw [callOpenaiLoop_transient_leading maxRetries errs _ true 0 0 [] (by omega)]
  simp [callOpenaiLoop]

/-- Claim C6: in a `call_openai` run whose transient failures stay within the
retry ceiling, the delay slept before retrying after the k-th transient
failure is exactly `backoffDelay k`, and `backoffDelay k = 2^k + 0.1*k`
(base 2.0, deterministic jitter `0.1*k`, no randomness) — the recorded sleep
schedule is `[backoffDelay 1, ..., backoffDelay m]` for `m ≤ max_retries`
failures. -/
theorem claim_C6 (maxRetries : Nat) (errs : List String) (p : String)
    (h : errs.length ≤ maxRetries) :
    callOpenai maxRetries (errs.map ServiceOutcome.transient ++ [ServiceOutcome.success p])
      = some ⟨.ok p, true, 0,
          (List.range errs.length).map (fun j => backoffDelay (j + 1)), errs.length + 1⟩
    ∧ ∀ k : Nat, backoffDelay k = 2 ^ k + (k : ℚ) / 10 := by
  constructor
  · exact callOpenai_transient_success maxRetries errs p h
  · intro k
    rfl

/-- Witness for claim C6: two transient failures under a ceiling of three
sleep exactly `2^1 + 0.1` and `2^2 + 0.2` seconds. -/
theorem claim_C6_witness :
    (["a", "b"].length ≤ 3)
    ∧ callOpenai 3 (["a", "b"].map ServiceOutcome.transient ++ [ServiceOutcome.success "ok"])
        = some ⟨.ok "ok", true, 0,
            (List.range ["a", "b"].length).map (fun j => backoffDelay (j + 1)), ["a", "b"].length + 1⟩ :=
  ⟨by decide, (claim_C6 3 ["a", "b"] "ok" (by decide)).1⟩

/-- Counterexample to claim C4 as stated.  With `max_retries = 1`: (i) one
transient failure — exactly `max_retries` failures — followed by a success
still returns the success value, so the call does not fail permanently when
`max_retries` transient failures have occurred; (ii) permanent failure only
happens at the second transient failure (`max_retries + 1` of them), after
two attempts, and the raised message says "Échec après 1 tentatives" — it
names the configured `max_retries`, not the number of attempts actually made
(2). -/
theorem claim_C4_counterexample :
    callOpenai 1 [ServiceOutcome.transient "boom", ServiceOutcome.success "ok"]
      = some ⟨.ok "ok", true, 0, [backoffDelay 1], 2⟩
    ∧ callOpenai 1 [ServiceOutcome.transient "a", ServiceOutcome.transient "b"]
      = some ⟨.error (.runtimeErr "Échec après 1 tentatives: b"), true, 0, [backoffDelay 1], 2⟩ := by
  constructor <;> rfl

/-- Claim C4, amended: for transient service errors, `call_openai` fails
permanently exactly when `max_retries + 1` transient failures have occurred,
raising an error whose message names the configured `max_retries` (one fewer
than the number of attempts actually made, which is `max_retries + 1`); and
if at most `max_retries` transient failures are followed by one success,
`call_openai` returns the success value. -/
theorem claim_C4 (maxRetries : Nat) (errs : List String) (e p : String) :
    (errs.length ≤ maxRetries →
      callOpenai maxRetries (errs.map ServiceOutcome.transient ++ [ServiceOutcome.success p])
        = some ⟨.ok p, true, 0,
            (List.range errs.length).map (fun j => backoffDelay (j + 1)), errs.length + 1⟩)
    ∧ (errs.length = maxRetries →
      callOpenai maxRetries ((errs ++ [e]).map ServiceOutcome.transient)
        = some ⟨.error (.runtimeErr ("Échec après " ++ toString maxRetries ++
            " tentatives: " ++ e)), true, 0,
            (List.range maxRetries).map (fun j => backoffDelay (j + 1)), maxRetries + 1⟩) := by
  constructor
  · intro h
    exact callOpenai_transient_success maxRetries errs p h
  · intro h
    unfold callOpenai
    rw [List.map_append]
    rw [callOpenaiLoop_transient_leading maxRetries errs _ true 0 0 [] (by omega)]
    subst h
    simp [callOpenaiLoop]

/-- Witness for claim C4 at `max_retries = 2`: two transient failures then a
success give the success value; a third transient failure after two gives a
permanent error naming "2 tentatives" after 3 attempts. -/
theorem claim_C4_witness :
    (["a", "b"].length ≤ 2 ∧ (["a", "b"].length = 2))
    ∧ callOpenai 2 (["a", "b"].map ServiceOutcome.transient ++ [ServiceOutcome.success "ok"])
        = some ⟨.ok "ok", true, 0,
            (List.range ["a", "b"].length).map (fun j => backoffDelay (j + 1)), ["a", "b"].length + 1⟩
    ∧ callOpenai 2 ((["a", "b"] ++ ["c"]).map ServiceOutcome.transient)
        = some ⟨.error (.runtimeErr ("Échec après " ++ toString 2 ++ " tentatives: " ++ "c")),
            true, 0, (List.range 2).map (fun j => backoffDelay (j + 1)), 2 + 1⟩ :=
  ⟨⟨by decide, by decide⟩, (claim_C4 2 ["a", "b"] "c" "ok").1 (by decide),
    (claim_C4 2 ["a", "b"] "c" "ok").2 (by decide)⟩

/-- Counterexample to claim C3 as stated.  With `max_retries = 1`: a
shape-rejected `TypeError` on the very first call flips the flag and retries,
but the retried call runs as attempt 2, so the transient failure that
follows immediately exceeds the ceiling and the invocation fails — while the
same transient-then-success script without the shape-rejected signal
succeeds.  The shape-rejected retry therefore does consume a retry slot. -/
theorem claim_C3_counterexample :
    callOpenai 1 [ServiceOutcome.typeErr
        "Responses.create() got an unexpected keyword argument \x27text\x27",
      ServiceOutcome.transient "boom", ServiceOutcome.success "ok"]
      = some ⟨.error (.runtimeErr "Échec après 1 tentatives: boom"), false, 1, [], 2⟩
    ∧ callOpenai 1 [ServiceOutcome.transient "boom", ServiceOutcome.success "ok"]
      = some ⟨.ok "ok", true, 0, [backoffDelay 1], 2⟩ := by
  constructor <;> rfl

/-- Claim C3, amended: when `call_openai` receives a shape-rejected
`TypeError` while the CapabilityFlag is true, it flips the flag to false
exactly once, emits the warning exactly once, and retries within the same
invocation — but the retried call takes the next attempt number, so the
shape-rejected attempt does count against the `max_retries` ceiling (the
retry consumes a retry slot).  When the flag is already false the handler
does not warn again and re-raises the `TypeError`. -/
theorem claim_C3 (maxRetries attempt warns : Nat) (sleeps : List ℚ) (msg : String)
    (rest : List ServiceOutcome) (h : shapeRejectedMsg msg = true) :
    callOpenaiLoop maxRetries true attempt warns sleeps (ServiceOutcome.typeErr msg :: rest)
      = callOpenaiLoop maxRetries false (attempt + 1) (warns + 1) sleeps rest
    ∧ callOpenaiLoop maxRetries false attempt warns sleeps (ServiceOutcome.typeErr msg :: rest)
      = some ⟨.error (.typeErr msg), false, warns, sleeps, attempt + 1⟩ := by
  constructor
  · simp [callOpenaiLoop, h]
  · simp [callOpenaiLoop, h]

/-- Witness for claim C3 at a concrete shape-rejected message. -/
theorem claim_C3_witness :
    shapeRejectedMsg "Responses.create() got an unexpected keyword argument \x27text\x27" = true
    ∧ callOpenaiLoop 5 true 0 0 [] [ServiceOutcome.typeErr
        "Responses.create() got an unexpected keyword argument \x27text\x27",
        ServiceOutcome.success "ok"]
      = callOpenaiLoop 5 false 1 1 [] [ServiceOutcome.success "ok"] :=
  ⟨by decide, (claim_C3 5 0 0 []
      "Responses.create() got an unexpected keyword argument \x27text\x27"
      [ServiceOutcome.success "ok"] (by decide)).1⟩

/-- Claim C10: in the packaged variant, for every non-dry-run task whose text
is non-blank, `process` raises a `TypeError` before any service call is
attempted (zero delegations reach the `call_openai` body), because
`core.reformulate_rows` invokes `call_openai` without the required
keyword-only `target_language` argument; this `TypeError` does not match the
shape-rejected pattern, and when such a task is the first future collected,
the error propagates through `reformulate_rows` and `run` aborts the batch
with a `SystemExit`. -/
theorem claim_C10 (body : String → Except PyError String × Nat) (i : Nat) (text : String)
    (h : pyBlank text = false) :
    processCore false true (packagedInvoke body) i text
      = (.error (.typeError
          "call_openai() missing 1 required keyword-only argument: \x27target_language\x27"), 0)
    ∧ shapeRejectedMsg
        "call_openai() missing 1 required keyword-only argument: \x27target_language\x27" = false
    ∧ ∀ (rows : List Row) (headers : List String) (column : String) (rest : List Nat),
        headers.contains column = true →
        rowGet (rows.getD i []) column = text →
        run rows headers column none false true (packagedInvoke body) (i :: rest)
          = .error (.systemExit ("Erreur pendant la reformulation: " ++
              "call_openai() missing 1 required keyword-only argument: \x27target_language\x27")) := by
  have hp : processCore false true (packagedInvoke body) i text
      = (.error (.typeError
          "call_openai() missing 1 required keyword-only argument: \x27target_language\x27"), 0) := by
    simp only [processCore, Bool.false_or, h]
    constructor
  refine ⟨hp, by decide, ?_⟩
  intro rows headers column rest hcol htext
  simp only [run, hcol, Bool.true_eq_false, if_false, Option.any_none,
    Bool.false_eq_true, false_and, if_false]
  have : reformulateRows column false (!false) (packagedInvoke body) (limitTarget rows none)
      (i :: rest) = .error (.typeError
        "call_openai() missing 1 required keyword-only argument: \x27target_language\x27") := by
    simp only [reformulateRows, limitTarget, applyLoop, Bool.not_false]
    rw [htext, hp]
  rw [this]
  rfl

/-- Witness for claim C10 at a concrete non-blank text. -/
theorem claim_C10_witness :
    pyBlank "<p>Bonjour</p>" = false
    ∧ processCore false true (packagedInvoke (fun t => (.ok t, 1))) 0 "<p>Bonjour</p>"
        = (.error (.typeError
            "call_openai() missing 1 required keyword-only argument: \x27target_language\x27"), 0) :=
  ⟨by decide, (claim_C10 (fun t => (.ok t, 1)) 0 "<p>Bonjour</p>" (by decide)).1⟩

/-- Rendering never changes the length of any line. -/
lemma revealLoop_map_length (n : Nat) (ls : List (List Char)) :
    (revealLoop n ls).map List.length = ls.map List.length := by
  induction ls generalizing n with
  | nil => simp [revealLoop]
  | cons line rest ih =>
      by_cases h0 : n = 0
      · subst h0
        simp [revealLoop, ih]
      · by_cases hle : line.length ≤ n
        · simp [revealLoop, h0, hle, ih]
        · simp only [revealLoop, if_neg h0, if_neg hle, List.map_cons, ih]
          congr 1
          simp
          omega

/-- The concatenation of the rendered lines is the revealed prefix of the
concatenated logo, padded with spaces to the full length. -/
lemma revealLoop_flatten (n : Nat) (ls : List (List Char)) :
    (revealLoop n ls).flatten
      = ls.flatten.take n ++ List.replicate ((ls.map List.length).sum - n) ' ' := by
  induction ls generalizing n with
  | nil => simp [revealLoop]
  | cons line rest ih =>
      by_cases h0 : n = 0
      · subst h0
        rw [show revealLoop 0 (line :: rest)
            = List.replicate line.length ' ' :: revealLoop 0 rest from rfl]
        simp only [List.flatten_cons, ih 0, List.take_zero, List.nil_append,
          List.map_cons, List.sum_cons, Nat.sub_zero]
        rw [← List.replicate_add]
      · by_cases hle : line.length ≤ n
        · simp only [revealLoop, if_neg h0, if_pos hle, List.flatten_cons,
            ih (n - line.length), List.map_cons, List.sum_cons]
          rw [List.take_append_eq_append_take, List.take_of_length_le hle, List.append_assoc]
          have harith : (rest.map List.length).sum - (n - line.length)
              = line.length + (rest.map List.length).sum - n := by omega
          rw [harith]
        · have hz : n - line.length = 0 := by omega
          simp only [revealLoop, if_neg h0, if_neg hle, List.flatten_cons, ih 0,
            List.take_zero, List.nil_append, List.map_cons, List.sum_cons, Nat.sub_zero]
          rw [List.take_append_eq_append_take, hz, List.take_zero, List.append_nil,
            List.append_assoc, ← List.replicate_add]
          have harith : line.length - n + (rest.map List.length).sum
              = line.length + (rest.map List.length).sum - n := by omega
          rw [harith]

set_option maxRecDepth 100000 in
/-- The logo holds 3400 characters in total. -/
lemma asciiLogoTotalChars_eq : asciiLogoTotalChars = 3400 := by rfl

/-- The revealed-character count follows the claimed formula: the floor of
total characters times the clamped ratio, with a minimum of one character as
soon as the clamped ratio is positive. -/
lemma visibleChars_eq (r : ℚ) :
    visibleChars r
      = max (if 0 < max 0 (min 1 r) then 1 else 0)
          (Int.toNat ⌊(asciiLogoTotalChars : ℚ) * max 0 (min 1 r)⌋) := by
  have hN1 : 1 ≤ asciiLogoTotalChars := by
    rw [asciiLogoTotalChars_eq]
    omega
  show min asciiLogoTotalChars
      (if 0 < max 0 (min 1 r) ∧ Int.toNat ⌊(asciiLogoTotalChars : ℚ) * max 0 (min 1 r)⌋ = 0
        then 1
        else Int.toNat ⌊(asciiLogoTotalChars : ℚ) * max 0 (min 1 r)⌋) = _
  set c : ℚ := max 0 (min 1 r) with hc
  have hc0 : (0 : ℚ) ≤ c := le_max_left _ _
  have hc1 : c ≤ 1 := max_le (by norm_num) (min_le_left _ _)
  set v : Nat := Int.toNat ⌊(asciiLogoTotalChars : ℚ) * c⌋ with hv
  have hvN : v ≤ asciiLogoTotalChars := by
    rw [hv, Int.toNat_le]
    have hmul : (asciiLogoTotalChars : ℚ) * c ≤ (asciiLogoTotalChars : ℚ) :=
      mul_le_of_le_one_right (by positivity) hc1
    calc ⌊(asciiLogoTotalChars : ℚ) * c⌋ ≤ ⌊(asciiLogoTotalChars : ℚ)⌋ :=
          Int.floor_le_floor hmul
      _ = (asciiLogoTotalChars : Int) := Int.floor_natCast _
  by_cases hpos : 0 < c
  · by_cases hzero : v = 0
    · simp only [hpos, hzero, and_self, if_true]
      omega
    · simp only [hpos, hzero, and_false, if_false, if_true]
      omega
  · have hceq : c = 0 := le_antisymm (not_lt.mp hpos) hc0
    have hv0 : v = 0 := by
      rw [hv, hceq]
      simp
    simp only [hpos, false_and, if_false, if_neg hpos, hv0]
    omega

/-- Claim C9: for every ratio, `build_logo_progress` keeps every rendered
line at its original length, reveals exactly `visibleChars` leading
characters of the logo (padding the rest with spaces), and `visibleChars`
equals the floor of the total character count times the ratio clamped to
[0, 1], with a minimum of one revealed character whenever the clamped ratio
is strictly positive. -/
theorem claim_C9 (r : ℚ) :
    (buildLogoProgress r).map List.length = asciiLogoCharLines.map List.length
    ∧ (buildLogoProgress r).flatten
        = asciiLogoCharLines.flatten.take (visibleChars r)
          ++ List.replicate (asciiLogoTotalChars - visibleChars r) ' '
    ∧ visibleChars r
        = max (if 0 < max 0 (min 1 r) then 1 else 0)
            (Int.toNat ⌊(asciiLogoTotalChars : ℚ) * max 0 (min 1 r)⌋) := by
  have hlen : asciiLogoCharLines.length = 20 := rfl
  have hguard : ¬ (asciiLogoTotalChars = 0 ∨ asciiLogoCharLines = []) := by
    rintro (h | h)
    · rw [asciiLogoTotalChars_eq] at h
      omega
    · rw [h] at hlen
      simp at hlen
  refine ⟨?_, ?_, visibleChars_eq r⟩
  · unfold buildLogoProgress
    rw [if_neg hguard]
    exact revealLoop_map_length _ _
  · unfold buildLogoProgress
    rw [if_neg hguard]
    exact revealLoop_flatten _ _

/-- After a key is overwritten in place, lookup of that key finds the new
value. -/
lemma find_rowSet_map_eq (row : Row) (k v : String)
    (hany : row.any (fun p => p.1 == k) = true) :
    List.find? (fun p => p.1 == k)
        (row.map (fun p => if p.1 == k then (k, v) else p)) = some (k, v) := by
  induction row with
  | nil => simp at hany
  | cons p rest ih =>
      by_cases hpk : (p.1 == k) = true
      · have himg : (if (p.1 == k) = true then (k, v) else p) = (k, v) := if_pos hpk
        simp only [List.map_cons, himg, List.find?_cons]
        have hkk : ((k, v).1 == k) = true := by simp
        simp only [hkk]
      · simp only [List.any_cons, Bool.or_eq_true] at hany
        rcases hany with h | h
        · exact absurd h hpk
        · have himg : (if (p.1 == k) = true then (k, v) else p) = p := if_neg hpk
          simp only [List.map_cons, himg, List.find?_cons]
          rw [Bool.not_eq_true] at hpk
          simp only [hpk]
          exact ih h

/-- Overwriting key `k` in place does not disturb lookups of other keys. -/
lemma find_rowSet_map_ne (row : Row) (k v j : String) (hjk : j ≠ k) :
    List.find? (fun p => p.1 == j)
        (row.map (fun p => if p.1 == k then (k, v) else p))
      = List.find? (fun p => p.1 == j) row := by
  have hkj : (k == j) = false := beq_eq_false_iff_ne.mpr (Ne.symm hjk)
  induction row with
  | nil => rfl
  | cons p rest ih =>
      by_cases hpk : (p.1 == k) = true
      · have hp1 : p.1 = k := beq_iff_eq.mp hpk
        have himg : (if (p.1 == k) = true then (k, v) else p) = (k, v) := if_pos hpk
        have hpj : (p.1 == j) = false := by
          rw [hp1]
          exact hkj
        have hfst : ((k, v).1 == j) = false := hkj
        simp only [List.map_cons, himg, List.find?_cons, hfst, hpj, ih]
      · have himg : (if (p.1 == k) = true then (k, v) else p) = p := if_neg hpk
        simp only [List.map_cons, himg, List.find?_cons]
        cases hpj : (p.1 == j) <;> simp only [hpj, ih]

/-- Dictionary law for the row model: after `row[k] = v`, reading `j` gives
`v` when `j = k` and the original value otherwise. -/
lemma rowGet_rowSet (row : Row) (k v j : String) :
    rowGet (rowSet row k v) j = if j = k then v else rowGet row j := by
  unfold rowSet
  by_cases hany : row.any (fun p => p.1 == k) = true
  · rw [if_pos hany]
    by_cases hjk : j = k
    · subst hjk
      rw [if_pos rfl]
      unfold rowGet
      rw [find_rowSet_map_eq row j v hany]
    · rw [if_neg hjk]
      unfold rowGet
      rw [find_rowSet_map_ne row k v j hjk]
  · rw [if_neg hany]
    rw [Bool.not_eq_true] at hany
    have hnone : List.find? (fun p => p.1 == k) row = none :=
      List.find?_eq_none.mpr (List.any_eq_false.mp hany)
    by_cases hjk : j = k
    · subst hjk
      rw [if_pos rfl]
      unfold rowGet
      rw [List.find?_append, hnone]
      simp [List.find?_cons]
    · rw [if_neg hjk]
      unfold rowGet
      rw [List.find?_append]
      have hkj : ((k, v).1 == j) = false := beq_eq_false_iff_ne.mpr (Ne.symm hjk)
      cases hrow : List.find? (fun p => p.1 == j) row <;>
        simp [hrow, List.find?_cons, hkj]

/-- A dry-run task returns the original text without touching the client or
the service. -/
lemma processCore_dryRun (clientReady : Bool) (invoke : String → Except PyError String × Nat)
    (index : Nat) (text : String) :
    processCore true clientReady invoke index text = (.ok (index, text), 0) := rfl

/-- A blank task returns the original text without touching the client or
the service, dry-run or not. -/
lemma processCore_blank (dryRun clientReady : Bool)
    (invoke : String → Except PyError String × Nat) (index : Nat) (text : String)
    (h : pyBlank text = true) :
    processCore dryRun clientReady invoke index text = (.ok (index, text), 0) := by
  unfold processCore
  rw [h, Bool.or_true]
  rfl

/-- With an always-successful invocation, a task produces the pair
`(index, taskText ...)`. -/
lemma processCore_fst_pure (dryRun : Bool) (f : String → String) (index : Nat) (text : String) :
    (processCore dryRun true (pureInvoke f) index text).1
      = .ok (index, taskText dryRun f text) := by
  unfold processCore pureInvoke taskText
  by_cases h : (dryRun || pyBlank text) = true <;> simp [h, Except.map]

/-- The collection loop is driven only by the first components of the task
results. -/
lemma applyLoop_congr (column : String)
    (p q : Nat → String → Except PyError (Nat × String) × Nat) (rows₀ : List Row)
    (order : List Nat) (acc : List Row)
    (h : ∀ i t, (p i t).1 = (q i t).1) :
    applyLoop column p rows₀ order acc = applyLoop column q rows₀ order acc := by
  induction order generalizing acc with
  | nil => rfl
  | cons i rest ih =>
      simp only [applyLoop, h]
      cases (q i (rowGet (rows₀.getD i []) column)).1 with
      | error e => rfl
      | ok r => exact ih _

/-- A successful collection pass preserves the number of rows. -/
lemma applyLoop_ok_length (column : String)
    (proc : Nat → String → Except PyError (Nat × String) × Nat) (rows₀ : List Row)
    (order : List Nat) (acc out : List Row)
    (h : applyLoop column proc rows₀ order acc = .ok out) : out.length = acc.length := by
  induction order generalizing acc with
  | nil =>
      simp only [applyLoop] at h
      cases h
      rfl
  | cons i rest ih =>
      simp only [applyLoop] at h
      cases hp : (proc i (rowGet (rows₀.getD i []) column)).1 with
      | error e => rw [hp] at h; cases h
      | ok r =>
          rw [hp] at h
          have := ih _ h
          rwa [List.length_set] at this

/-- With an always-successful invocation the collection loop is a left fold
of in-place index updates. -/
lemma applyLoop_pure (column : String) (dryRun : Bool) (f : String → String)
    (rows₀ : List Row) (order : List Nat) (acc : List Row) :
    applyLoop column (processCore dryRun true (pureInvoke f)) rows₀ order acc
      = .ok (order.foldl (updStep column dryRun f rows₀) acc) := by
  induction order generalizing acc with
  | nil => rfl
  | cons i rest ih =>
      simp only [applyLoop, processCore_fst_pure, List.foldl_cons]
      exact ih _

/-- Updates at different indices commute (updates at the same index are
literally equal), so the completion order cannot change the final batch. -/
lemma updStep_comm (column : String) (dryRun : Bool) (f : String → String)
    (rows₀ : List Row) (acc : List Row) (i j : Nat) :
    updStep column dryRun f rows₀ (updStep column dryRun f rows₀ acc i) j
      = updStep column dryRun f rows₀ (updStep column dryRun f rows₀ acc j) i := by
  by_cases hij : i = j
  · subst hij
    rfl
  · unfold updStep
    have h1 : ∀ (l : List Row) (a : Row) (m n : Nat), m ≠ n →
        (l.set m a).getD n [] = l.getD n [] := by
      intro l a m n hmn
      rw [List.getD_eq_getElem?_getD, List.getElem?_set_ne hmn, ← List.getD_eq_getElem?_getD]
    rw [h1 _ _ _ _ hij, h1 _ _ _ _ (Ne.symm hij), List.set_comm _ _ _ hij]

/-- Folding the updates never changes the number of rows. -/
lemma foldl_updStep_length (column : String) (dryRun : Bool) (f : String → String)
    (rows₀ : List Row) (l : List Nat) (acc : List Row) :
    (l.foldl (updStep column dryRun f rows₀) acc).length = acc.length := by
  induction l generalizing acc with
  | nil => rfl
  | cons i rest ih =>
      rw [List.foldl_cons, ih]
      exact List.length_set acc i _

/-- Indices outside the completion list are untouched. -/
lemma foldl_updStep_getD_not_mem (column : String) (dryRun : Bool) (f : String → String)
    (rows₀ : List Row) (l : List Nat) (acc : List Row) (j : Nat) (hj : j ∉ l) :
    (l.foldl (updStep column dryRun f rows₀) acc).getD j [] = acc.getD j [] := by
  induction l generalizing acc with
  | nil => rfl
  | cons i rest ih =>
      rw [List.foldl_cons, ih _ (fun h => hj (List.mem_cons_of_mem i h))]
      unfold updStep
      rw [List.getD_eq_getElem?_getD,
        List.getElem?_set_ne (fun h => hj (by rw [← h]; exact List.mem_cons_self i rest)),
        ← List.getD_eq_getElem?_getD]

/-- Each listed index receives exactly its own update, wherever it sits in
the completion order. -/
lemma foldl_updStep_getD_mem (column : String) (dryRun : Bool) (f : String → String)
    (rows₀ : List Row) (l : List Nat) (acc : List Row) (j : Nat)
    (hnd : l.Nodup) (hjl : j ∈ l) (hjlen : j < acc.length) :
    (l.foldl (updStep column dryRun f rows₀) acc).getD j []
      = rowSet (acc.getD j []) column (taskText dryRun f (rowGet (rows₀.getD j []) column)) := by
  induction l generalizing acc with
  | nil => cases hjl
  | cons i rest ih =>
      rw [List.foldl_cons]
      rcases List.mem_cons.mp hjl with hji | hjrest
      · subst hji
        have hnotrest : j ∉ rest := (List.nodup_cons.mp hnd).1
        rw [foldl_updStep_getD_not_mem _ _ _ _ _ _ _ hnotrest]
        unfold updStep
        rw [List.getD_eq_getElem?_getD, List.getElem?_set_self hjlen]
        rfl
      · have hji : i ≠ j := by
          rintro rfl
          exact (List.nodup_cons.mp hnd).1 hjrest
        have hacc : (updStep column dryRun f rows₀ acc i).getD j [] = acc.getD j [] := by
          unfold updStep
          rw [List.getD_eq_getElem?_getD, List.getElem?_set_ne hji, ← List.getD_eq_getElem?_getD]
        rw [ih _ (List.nodup_cons.mp hnd).2 hjrest
          (by rw [updStep, List.length_set]; exact hjlen), hacc]

/-- Applying every index's update in submission order yields the expected
batch. -/
lemma foldl_updStep_range (column : String) (dryRun : Bool) (f : String → String)
    (rows : List Row) :
    (List.range rows.length).foldl (updStep column dryRun f rows) rows
      = expectedRows dryRun f column rows := by
  apply List.ext_getElem
  · rw [foldl_updStep_length]
    simp [expectedRows]
  · intro n h1 h2
    have hlen : n < rows.length := by
      rw [foldl_updStep_length] at h1
      exact h1
    rw [← List.getD_eq_getElem _ [] h1,
      foldl_updStep_getD_mem column dryRun f rows _ rows n (List.nodup_range _)
        (List.mem_range.mpr hlen) hlen]
    unfold expectedRows
    rw [List.getElem_map, List.getElem_range]

/-- `reformulate_rows` with an always-successful invocation resolves every
record and applies each result at its own index, for any completion order. -/
lemma reformulateRows_pure (column : String) (dryRun : Bool) (f : String → String)
    (rows : List Row) (order : List Nat) (h : order.Perm (List.range rows.length)) :
    reformulateRows column dryRun true (pureInvoke f) rows order
      = .ok (expectedRows dryRun f column rows) := by
  unfold reformulateRows
  rw [applyLoop_pure]
  congr 1
  rw [h.foldl_eq' (fun x _ y _ z => updStep_comm column dryRun f rows z x y) rows]
  exact foldl_updStep_range column dryRun f rows

/-- Claim C1: for every batch, every completion order, and an
always-successful service, exactly one InvocationResult `(index, text)` is
produced per record — the produced indices are exactly `0, ..., n-1` with no
duplicate or missing index — and each result is applied at its own index, so
out-of-order completion never loses or misplaces an update: the final batch
equals the expected batch whatever the completion order. -/
theorem claim_C1 (dryRun : Bool) (f : String → String) (column : String)
    (rows : List Row) (order : List Nat)
    (h : order.Perm (List.range rows.length)) :
    (invocationResults dryRun f column rows).map Prod.fst = List.range rows.length
    ∧ reformulateRows column dryRun true (pureInvoke f) rows order
        = .ok (expectedRows dryRun f column rows) := by
  constructor
  · unfold invocationResults
    rw [List.map_map]
    exact (List.map_congr_left (fun i _ => rfl)).trans (List.map_id _)
  · exact reformulateRows_pure column dryRun f rows order h

/-- Witness for claim C1 on a two-record batch collected in reverse order. -/
theorem claim_C1_witness :
    ([1, 0].Perm (List.range ([[("c", "a")], [("c", "b")]] : List Row).length))
    ∧ ((invocationResults false (fun t => t ++ "!") "c"
          [[("c", "a")], [("c", "b")]]).map Prod.fst
        = List.range ([[("c", "a")], [("c", "b")]] : List Row).length
      ∧ reformulateRows "c" false true (pureInvoke (fun t => t ++ "!"))
          [[("c", "a")], [("c", "b")]] [1, 0]
        = .ok (expectedRows false (fun t => t ++ "!") "c" [[("c", "a")], [("c", "b")]])) :=
  ⟨by decide,
    claim_C1 false (fun t => t ++ "!") "c" [[("c", "a")], [("c", "b")]] [1, 0] (by decide)⟩

/-- Dry-run short-circuits the task text. -/
lemma taskText_dryRun (f : String → String) (text : String) :
    taskText true f text = text := rfl

/-- Claim C7: dry-run batches resolve every record with its original text and
zero service delegations, whatever the service, client state, content and
completion order — field values are unchanged (read through any key) — and a
blank or whitespace-only text short-circuits to `(index, text)` with zero
service delegations whether or not dry-run is set. -/
theorem claim_C7 (column : String) (rows : List Row) (clientReady : Bool)
    (invoke : String → Except PyError String × Nat) (order : List Nat)
    (dryRun2 clientReady2 : Bool) (invoke2 : String → Except PyError String × Nat)
    (i : Nat) (text : String)
    (horder : order.Perm (List.range rows.length)) (hblank : pyBlank text = true) :
    reformulateRows column true clientReady invoke rows order
      = .ok (expectedRows true (fun t => t) column rows)
    ∧ (∀ i2 k, rowGet ((expectedRows true (fun t => t) column rows).getD i2 []) k
        = rowGet (rows.getD i2 []) k)
    ∧ batchServiceCalls column true clientReady invoke rows = 0
    ∧ processCore dryRun2 clientReady2 invoke2 i text = (.ok (i, text), 0) := by
  refine ⟨?_, ?_, ?_, processCore_blank _ _ _ _ _ hblank⟩
  · unfold reformulateRows
    rw [applyLoop_congr column _ (processCore true true (pureInvoke (fun t => t)))
      rows order rows (fun i2 t => by rw [processCore_dryRun, processCore_fst_pure]; rfl)]
    rw [applyLoop_pure]
    congr 1
    rw [horder.foldl_eq' (fun x _ y _ z => updStep_comm column true (fun t => t) rows z x y) rows]
    exact foldl_updStep_range column true (fun t => t) rows
  · intro i2 k
    by_cases hlt : i2 < rows.length
    · unfold expectedRows
      rw [List.getD_eq_getElem _ [] (by simpa using hlt), List.getElem_map, List.getElem_range,
        taskText_dryRun, rowGet_rowSet]
      split_ifs with hke
      · subst hke
        rfl
      · rfl
    · have hge : rows.length ≤ i2 := not_lt.mp hlt
      rw [List.getD_eq_default _ _ (by simpa [expectedRows] using hge),
        List.getD_eq_default _ _ hge]
  · unfold batchServiceCalls
    refine List.sum_eq_zero ?_
    intro x hx
    rcases List.mem_map.mp hx with ⟨i2, hi2, rfl⟩
    rw [processCore_dryRun]

/-- Witness for claim C7 on a one-record batch and a whitespace-only text. -/
theorem claim_C7_witness :
    (([0] : List Nat).Perm (List.range ([[("c", "a")]] : List Row).length)
      ∧ pyBlank "  " = true)
    ∧ (reformulateRows "c" true false (pureInvoke (fun t => t)) [[("c", "a")]] [0]
        = .ok (expectedRows true (fun t => t) "c" [[("c", "a")]])
      ∧ batchServiceCalls "c" true false (pureInvoke (fun t => t)) [[("c", "a")]] = 0
      ∧ processCore false true (pureInvoke (fun t => t)) 7 "  " = (.ok (7, "  "), 0)) :=
  ⟨⟨by decide, by decide⟩,
    (claim_C7 "c" [[("c", "a")]] false (pureInvoke (fun t => t)) [0] false true
        (pureInvoke (fun t => t)) 7 "  " (by decide) (by decide)).1,
    (claim_C7 "c" [[("c", "a")]] false (pureInvoke (fun t => t)) [0] false true
        (pureInvoke (fun t => t)) 7 "  " (by decide) (by decide)).2.2.1,
    (claim_C7 "c" [[("c", "a")]] false (pureInvoke (fun t => t)) [0] false true
        (pureInvoke (fun t => t)) 7 "  " (by decide) (by decide)).2.2.2⟩

/-- With a valid column, a valid limit, and a usable client configuration,
`run` reduces to the reformulation pass on the limited rows followed by the
save payload (success) or a `SystemExit` naming the cause (failure). -/
lemma run_unfold (rows : List Row) (headers : List String) (column : String)
    (limitRows : Option Int) (dryRun apiKeyPresent : Bool)
    (invoke : String → Except PyError String × Nat) (order : List Nat)
    (hcol : headers.contains column = true)
    (hlim : ∀ l, limitRows = some l → 1 ≤ l)
    (hkey : dryRun = false → apiKeyPresent = true) :
    run rows headers column limitRows dryRun apiKeyPresent invoke order
      = match reformulateRows column dryRun (!dryRun) invoke
            (limitTarget rows limitRows) order with
        | .error e => .error (.systemExit ("Erreur pendant la reformulation: " ++ e.message))
        | .ok mutated => .ok (headers, mutated) := by
  unfold run
  rw [hcol]
  rw [if_neg (by simp)]
  have hany : Option.any (fun l => decide (l < 1)) limitRows = false := by
    cases limitRows with
    | none => rfl
    | some l =>
        rw [Option.any_some]
        exact decide_eq_false (not_lt.mpr (hlim l rfl))
  rw [hany]
  rw [if_neg (by simp)]
  have henv : ¬ (dryRun = false ∧ apiKeyPresent = false) := by
    rintro ⟨h1, h2⟩
    rw [hkey h1] at h2
    cases h2
  rw [if_neg henv]

/-- Counterexample to claim C2 as stated.  A 2-record batch run with limit 1
(dry-run, so values pass through) produces an output containing only the
first record: the record at index 1 is absent from the payload handed to the
output collaborator, instead of passing through unmodified as the claim
requires. -/
theorem claim_C2_counterexample :
    run [[("c", "a")], [("c", "b")]] ["c"] "c" (some 1) true true
        (pureInvoke (fun t => t)) [0]
      = .ok (["c"], [[("c", "a")]])
    ∧ [("c", "b")] ∉ ([[("c", "a")]] : List Row) := by
  constructor
  · rfl
  · decide

/-- Claim C2, amended: when `run` is given a row-count limit `L` with
`1 ≤ L < N`, only the leading `L` records are dispatched to the engine, and
the records at indices `L..N-1` are NOT handed to the output collaborator:
the saved payload consists of the `L` processed leading records only (its
length is `L`).  A limit below 1 is a configuration error (`ValueError`). -/
theorem claim_C2 (rows : List Row) (headers : List String) (column : String) (L : Int)
    (dryRun apiKeyPresent : Bool) (invoke : String → Except PyError String × Nat)
    (order : List Nat)
    (hcol : headers.contains column = true) (hL1 : 1 ≤ L)
    (hLN : L < (rows.length : Int)) (hkey : dryRun = false → apiKeyPresent = true) :
    limitTarget rows (some L) = rows.take L.toNat
    ∧ (limitTarget rows (some L)).length = L.toNat
    ∧ (∀ out, run rows headers column (some L) dryRun apiKeyPresent invoke order = .ok out →
        out.1 = headers
        ∧ out.2.length = L.toNat
        ∧ reformulateRows column dryRun (!dryRun) invoke (rows.take L.toNat) order
            = .ok out.2)
    ∧ (∀ L2 : Int, L2 < 1 →
        run rows headers column (some L2) dryRun apiKeyPresent invoke order
          = .error (.valueError "--limit-rows doit être supérieur ou égal à 1.")) := by
  have htarget : limitTarget rows (some L) = rows.take L.toNat := by
    show (if L < (rows.length : Int) then rows.take L.toNat else rows) = rows.take L.toNat
    rw [if_pos hLN]
  have hlen : (rows.take L.toNat).length = L.toNat := by
    rw [List.length_take]
    have : L.toNat ≤ rows.length := by omega
    omega
  refine ⟨htarget, by rw [htarget]; exact hlen, ?_, ?_⟩
  · intro out hout
    rw [run_unfold rows headers column (some L) dryRun apiKeyPresent invoke order hcol
      (fun l hl => by cases hl; exact hL1) hkey, htarget] at hout
    cases hr : reformulateRows column dryRun (!dryRun) invoke (rows.take L.toNat) order with
    | error e => rw [hr] at hout; cases hout
    | ok mutated =>
        rw [hr] at hout
        cases hout
        refine ⟨rfl, ?_, ?_⟩
        · show mutated.length = L.toNat
          rw [applyLoop_ok_length column (processCore dryRun (!dryRun) invoke)
            (rows.take L.toNat) order (rows.take L.toNat) mutated hr, hlen]
        · rfl
  · intro L2 hL2
    unfold run
    rw [hcol]
    rw [if_neg (by simp)]
    have hany : Option.any (fun l => decide (l < 1)) (some L2) = true := by
      rw [Option.any_some]
      exact decide_eq_true hL2
    rw [hany]
    rfl

/-- Witness for claim C2: a 5-record batch with limit 2 — the two leading
records are dispatched and the saved payload has exactly 2 records. -/
theorem claim_C2_witness :
    ((["c"] : List String).contains "c" = true ∧ (1 : Int) ≤ 2 ∧ (2 : Int) < 5)
    ∧ (limitTarget [[("c", "a")], [("c", "b")], [("c", "d")], [("c", "e")], [("c", "f")]]
          (some 2)
        = ([[("c", "a")], [("c", "b")], [("c", "d")], [("c", "e")], [("c", "f")]] : List Row).take
            (Int.toNat 2)
      ∧ (limitTarget [[("c", "a")], [("c", "b")], [("c", "d")], [("c", "e")], [("c", "f")]]
            (some 2)).length = Int.toNat 2) :=
  ⟨⟨by decide, by decide, by decide⟩,
    (claim_C2 [[("c", "a")], [("c", "b")], [("c", "d")], [("c", "e")], [("c", "f")]]
        ["c"] "c" 2 true true (pureInvoke (fun t => t)) [0, 1] (by decide) (by decide)
        (by decide) (fun h => by cases h)).1,
    (claim_C2 [[("c", "a")], [("c", "b")], [("c", "d")], [("c", "e")], [("c", "f")]]
        ["c"] "c" 2 true true (pureInvoke (fun t => t)) [0, 1] (by decide) (by decide)
        (by decide) (fun h => by cases h)).2.1⟩

/-- Claim C8: with a valid configuration, if any invocation fails terminally
then `run` aborts the whole batch with a single `SystemExit` whose message
names the underlying cause, and the save payload is never produced; `run`
produces a save payload only when every dispatched record has resolved
successfully, and that payload is exactly the headers with the fully
reformulated target rows. -/
theorem claim_C8 (rows : List Row) (headers : List String) (column : String)
    (limitRows : Option Int) (dryRun apiKeyPresent : Bool)
    (invoke : String → Except PyError String × Nat) (order : List Nat)
    (hcol : headers.contains column = true)
    (hlim : ∀ l, limitRows = some l → 1 ≤ l)
    (hkey : dryRun = false → apiKeyPresent = true) :
    (∀ e, reformulateRows column dryRun (!dryRun) invoke (limitTarget rows limitRows) order
        = .error e →
      run rows headers column limitRows dryRun apiKeyPresent invoke order
        = .error (.systemExit ("Erreur pendant la reformulation: " ++ e.message)))
    ∧ (∀ out, run rows headers column limitRows dryRun apiKeyPresent invoke order = .ok out →
        out.1 = headers
        ∧ reformulateRows column dryRun (!dryRun) invoke (limitTarget rows limitRows) order
            = .ok out.2) := by
  have hru := run_unfold rows headers column limitRows dryRun apiKeyPresent invoke order
    hcol hlim hkey
  constructor
  · intro e he
    rw [hru, he]
  · intro out hout
    rw [hru] at hout
    cases hr : reformulateRows column dryRun (!dryRun) invoke (limitTarget rows limitRows)
        order with
    | error e => rw [hr] at hout; cases hout
    | ok mutated =>
        rw [hr] at hout
        cases hout
        exact ⟨rfl, rfl⟩

/-- Witness for claim C8: a single-record batch whose invocation fails with
a retry-exhausted error aborts with the wrapped `SystemExit`. -/
theorem claim_C8_witness :
    ((["c"] : List String).contains "c" = true
      ∧ reformulateRows "c" false (!false)
          (fun _ => (.error (.runtimeError "Échec après 1 tentatives: boom"), 1))
          (limitTarget [[("c", "a")]] none) [0]
        = .error (.runtimeError "Échec après 1 tentatives: boom"))
    ∧ run [[("c", "a")]] ["c"] "c" none false true
        (fun _ => (.error (.runtimeError "Échec après 1 tentatives: boom"), 1)) [0]
      = .error (.systemExit ("Erreur pendant la reformulation: " ++
          PyError.message (.runtimeError "Échec après 1 tentatives: boom"))) :=
  ⟨⟨by decide, by rfl⟩,
    (claim_C8 [[("c", "a")]] ["c"] "c" none false true
        (fun _ => (.error (.runtimeError "Échec après 1 tentatives: boom"), 1)) [0]
        (by decide) (fun l hl => by cases hl) (fun _ => rfl)).1
      (.runtimeError "Échec après 1 tentatives: boom") (by rfl)⟩
